import Mathlib

/-!
Design patterns: Abstract Factory and State

A shallow embedding of `src/abstract-factory/AbstractFactory.cpp` and
`src/state/State.cpp`, followed by the properties established for them.

Conventions of the embedding

* A class hierarchy with a closed set of concrete subclasses becomes an
  inductive type whose constructors are the concrete classes; a virtual
  method becomes a function defined by cases on the constructor.
* `std::cout` is the text written so far; `<< std::endl` writes a newline.
* Objects created with `new` / `std::make_unique` in `State.cpp` live in an
  explicit heap, so that ownership and lifetime can be stated.
* A call has one of three outcomes: it returns, it leaves by an exception,
  or it has undefined behaviour (a null or dangling pointer is dereferenced).
-/

set_option autoImplicit false

/-! ## Abstract Factory (`AbstractFactory.cpp`) -/

namespace AbstractFactoryPattern

/-- Concrete subclasses of `ProductA` (lines 30-44). -/
inductive ProductA where
  | ConcreteProductAX
  | ConcreteProductAY
  deriving DecidableEq, Repr

/-- Concrete subclasses of `ProductB` (lines 63-77). -/
inductive ProductB where
  | ConcreteProductBX
  | ConcreteProductBY
  deriving DecidableEq, Repr

/-- Virtual `ProductA::getName`, as overridden at lines 34 and 42. -/
def ProductA.getName : ProductA → String
  | .ConcreteProductAX => "A-X"
  | .ConcreteProductAY => "A-Y"

/-- Virtual `ProductB::getName`, as overridden at lines 67 and 75. -/
def ProductB.getName : ProductB → String
  | .ConcreteProductBX => "B-X"
  | .ConcreteProductBY => "B-Y"

/-- Concrete subclasses of `AbstractFactory` (lines 96-118). -/
inductive AbstractFactory where
  | ConcreteFactoryX
  | ConcreteFactoryY
  deriving DecidableEq, Repr

/-- Virtual `AbstractFactory::createProductA` (lines 100-102, 112-114): the
dynamic class of the freshly made product. -/
def AbstractFactory.createProductA : AbstractFactory → ProductA
  | .ConcreteFactoryX => .ConcreteProductAX
  | .ConcreteFactoryY => .ConcreteProductAY

/-- Virtual `AbstractFactory::createProductB` (lines 103-105, 115-117). -/
def AbstractFactory.createProductB : AbstractFactory → ProductB
  | .ConcreteFactoryX => .ConcreteProductBX
  | .ConcreteFactoryY => .ConcreteProductBY

/-- The statement `std::cout << "Product: " << name << std::endl;`. -/
def printProduct (cout : String) (name : String) : String :=
  cout ++ "Product: " ++ name ++ "\n"

/-- Function `main` (lines 120-136): the text on standard output and the
exit status, starting from the text `cout` already written. -/
def main (cout : String) : String × Int :=
  let factoryX := AbstractFactory.ConcreteFactoryX
  let factoryY := AbstractFactory.ConcreteFactoryY
  let cout := printProduct cout factoryX.createProductA.getName
  let cout := printProduct cout factoryY.createProductA.getName
  let cout := printProduct cout factoryX.createProductB.getName
  let cout := printProduct cout factoryY.createProductB.getName
  (cout, 0)

/-- The two product families. -/
inductive Family where
  | A
  | B
  deriving DecidableEq, Repr

/-- Name of the product of family `f` made by factory `v`: the factory
method of that family followed by `getName`. -/
def productName (f : Family) (v : AbstractFactory) : String :=
  match f with
  | .A => v.createProductA.getName
  | .B => v.createProductB.getName

/-- Letter by which a factory variant is tagged in product names. -/
def variantTag : AbstractFactory → Char
  | .ConcreteFactoryX => 'X'
  | .ConcreteFactoryY => 'Y'

/-- The other factory variant. -/
def AbstractFactory.other : AbstractFactory → AbstractFactory
  | .ConcreteFactoryX => .ConcreteFactoryY
  | .ConcreteFactoryY => .ConcreteFactoryX

/-- Reads family and variant back from a product name. -/
def decodeName (s : String) : Option (Family × AbstractFactory) :=
  if s = "A-X" then some (.A, .ConcreteFactoryX)
  else if s = "A-Y" then some (.A, .ConcreteFactoryY)
  else if s = "B-X" then some (.B, .ConcreteFactoryX)
  else if s = "B-Y" then some (.B, .ConcreteFactoryY)
  else none

/-- Lines of text, each followed by a newline. -/
def unlines : List String → String
  | [] => ""
  | l :: ls => l ++ "\n" ++ unlines ls

end AbstractFactoryPattern

/-! ## State (`State.cpp`) -/

namespace StatePattern

/-- How a call ends. The source contains no `throw`, so `thrown` is never
produced by the embedded code; `undefined` stands for undefined behaviour. -/
inductive Outcome (α : Type) where
  | returned (a : α)
  | thrown (what : String)
  | undefined
  deriving DecidableEq, Repr

/-- Sequencing of calls: a later call runs only if the earlier one returned. -/
def Outcome.bind {α β : Type} (o : Outcome α) (f : α → Outcome β) : Outcome β :=
  match o with
  | .returned a => f a
  | .thrown what => .thrown what
  | .undefined => .undefined

/-- Concrete subclasses of `State` (lines 32-44): the dynamic class of a
`State` object. -/
inductive State where
  | ConcreteStateA
  | ConcreteStateB
  deriving DecidableEq, Repr

/-- Address of a heap object. -/
abbrev Addr := Nat

/-- The process: the `State` objects that are allocated and not yet deleted
(address and dynamic class), the next unused address, and the text written
to `std::cout`. -/
structure Machine where
  heap : List (Addr × State)
  fresh : Addr
  cout : String
  deriving DecidableEq, Repr

/-- The process at program start. -/
def Machine.start : Machine := ⟨[], 0, ""⟩

/-- Virtual `State::handle`, as overridden at lines 36 and 43. -/
def State.handle (s : State) (m : Machine) : Machine :=
  match s with
  | .ConcreteStateA => { m with cout := m.cout ++ "State A handled." ++ "\n" }
  | .ConcreteStateB => { m with cout := m.cout ++ "State B handled." ++ "\n" }

/-- A `std::unique_ptr<State>`: the stored pointer, `none` for `nullptr`. -/
abbrev UniquePtr := Option Addr

/-- `std::make_unique<k>()`: a new object of class `k` at an unused address,
owned by the returned pointer. -/
def make_unique (k : State) (m : Machine) : UniquePtr × Machine :=
  (some m.fresh, { m with heap := (m.fresh, k) :: m.heap, fresh := m.fresh + 1 })

/-- The expression `delete p` for non-null `p`: the destructors of `State`
and its subclasses have empty bodies, so the object just stops existing.
Deleting what is not allocated is undefined. -/
def Machine.delete (m : Machine) (p : Addr) : Outcome Machine :=
  match m.heap.lookup p with
  | some _ => .returned { m with heap := m.heap.filter (fun e => e.1 != p) }
  | none => .undefined

/-- `std::unique_ptr::release`: hands back the stored pointer and leaves the
`unique_ptr` null. The object is not deleted. -/
def UniquePtr.release (u : UniquePtr) : Option Addr × UniquePtr :=
  (u, none)

/-- `std::unique_ptr::reset(p)`: stores `p`, then deletes the object that was
stored before, if there was one. -/
def UniquePtr.reset (u : UniquePtr) (p : Option Addr) (m : Machine) :
    Outcome (UniquePtr × Machine) :=
  match u with
  | none => .returned (p, m)
  | some old => (m.delete old).bind fun m1 => .returned (p, m1)

/-- Move assignment `u = std::move(s)`, which is `u.reset(s.release())`. -/
def UniquePtr.moveAssign (u s : UniquePtr) (m : Machine) :
    Outcome (UniquePtr × Machine) :=
  u.reset s.release.1 m

/-- Destructor of a `std::unique_ptr`: deletes the owned object, if any. -/
def UniquePtr.destroy (u : UniquePtr) (m : Machine) : Outcome Machine :=
  match u with
  | none => .returned m
  | some p => m.delete p

/-- Class `Context` (lines 50-64): its only member is `state`. -/
structure Context where
  state : UniquePtr
  deriving DecidableEq, Repr

/-- Constructor `Context() : state(nullptr) {}` (line 52). -/
def Context.new : Context := ⟨none⟩

/-- Method `Context::request` (line 54), `state->handle()`: dereferencing a
null pointer, or one whose object is gone, is undefined; otherwise the call
is dispatched on the dynamic class of the object. -/
def Context.request (c : Context) (m : Machine) : Outcome (Context × Machine) :=
  match c.state with
  | none => .undefined
  | some p =>
    match m.heap.lookup p with
    | none => .undefined
    | some k => .returned (c, k.handle m)

/-- Method `Context::setState` (lines 55-60): `if (state) state.release();`
followed by `state = std::move(s);`. The parameter `s` is null after the
move, so its destructor does nothing. -/
def Context.setState (c : Context) (s : UniquePtr) (m : Machine) :
    Outcome (Context × Machine) :=
  let state := if c.state.isSome then c.state.release.2 else c.state
  (UniquePtr.moveAssign state s m).bind fun r => .returned (⟨r.1⟩, r.2)

/-- Destructor `~Context() {}` (line 53): the body is empty, then the member
`state` is destroyed. -/
def Context.destroy (c : Context) (m : Machine) : Outcome Machine :=
  UniquePtr.destroy c.state m

/-- Function `main` (lines 66-74). The `Context` is held by value; it is
destroyed when `ptr` goes out of scope at the end of `main`. -/
def main (m : Machine) : Outcome (Int × Machine) :=
  let ptr := Context.new
  let (a, m) := make_unique .ConcreteStateA m
  (ptr.setState a m).bind fun (ptr, m) =>
  (ptr.request m).bind fun (ptr, m) =>
  let (b, m) := make_unique .ConcreteStateB m
  (ptr.setState b m).bind fun (ptr, m) =>
  (ptr.request m).bind fun (ptr, m) =>
  (ptr.destroy m).bind fun m =>
  .returned (0, m)

/-- One call made by a client on its `Context`: `setState` with a newly
made state object of the given class, or `request`. -/
inductive Call where
  | setState (k : State)
  | request
  deriving DecidableEq, Repr

/-- Performs one client call: `ptr->setState(std::make_unique<k>())` or
`ptr->request()`. -/
def Call.exec (call : Call) (c : Context) (m : Machine) : Outcome (Context × Machine) :=
  match call with
  | .setState k =>
    let (s, m1) := make_unique k m
    c.setState s m1
  | .request => c.request m

/-- Performs a sequence of client calls in order, stopping at the first one
that does not return. -/
def runCalls : List Call → Context → Machine → Outcome (Context × Machine)
  | [], c, m => .returned (c, m)
  | call :: rest, c, m => (call.exec c m).bind fun r => runCalls rest r.1 r.2

/-- The context `c` holds a live object of class `k`. -/
def Context.Holds (c : Context) (m : Machine) (k : State) : Prop :=
  ∃ p, c.state = some p ∧ m.heap.lookup p = some k

/-- Text written by `handle` of class `k`. -/
def handledLine : State → String
  | .ConcreteStateA => "State A handled.\n"
  | .ConcreteStateB => "State B handled.\n"

/-- Argument of the most recent `setState` after the calls `cs`, when `k` was
the most recent one before them. -/
def lastSet (k : State) : List Call → State
  | [] => k
  | .setState j :: cs => lastSet j cs
  | .request :: cs => lastSet k cs

/-- For each `request` among the calls `cs`, in order, the argument of the
latest `setState` before it; `k` is the one in force before `cs`. -/
def expectedTrace (k : State) : List Call → List State
  | [] => []
  | .setState j :: cs => expectedTrace j cs
  | .request :: cs => k :: expectedTrace k cs

/-- Concatenation of pieces of text, in order. -/
def concatText : List String → String
  | [] => ""
  | s :: ss => s ++ concatText ss

/-- Number of `request` calls in a sequence. -/
def requestCount : List Call → Nat
  | [] => 0
  | .setState _ :: cs => requestCount cs
  | .request :: cs => requestCount cs + 1

end StatePattern

/-! ## Properties of the Abstract Factory program -/

namespace AbstractFactoryPattern

/-- C1: every concrete factory yields products named after its own variant:
the names are the family letter, a dash and the tag of the factory; factory
X yields exactly "A-X" and "B-X", factory Y exactly "A-Y" and "B-Y"; the tag
of the other variant occurs in neither name. -/
theorem factory_products_carry_own_variant (v : AbstractFactory) :
    v.createProductA.getName = "A-" ++ String.singleton (variantTag v) ∧
    v.createProductB.getName = "B-" ++ String.singleton (variantTag v) ∧
    variantTag v.other ∉ v.createProductA.getName.data ∧
    variantTag v.other ∉ v.createProductB.getName.data ∧
    AbstractFactory.ConcreteFactoryX.createProductA.getName = "A-X" ∧
    AbstractFactory.ConcreteFactoryX.createProductB.getName = "B-X" ∧
    AbstractFactory.ConcreteFactoryY.createProductA.getName = "A-Y" ∧
    AbstractFactory.ConcreteFactoryY.createProductB.getName = "B-Y" := by
  cases v <;> decide

/-- C8: run on an empty standard output, `main` writes exactly the four lines
"Product: A-X", "Product: A-Y", "Product: B-X", "Product: B-Y", in that
order, and returns exit status 0. -/
theorem main_writes_four_products :
    main "" = ("Product: A-X\nProduct: A-Y\nProduct: B-X\nProduct: B-Y\n", 0) ∧
    (main "").1 = unlines ["Product: A-X", "Product: A-Y", "Product: B-X", "Product: B-Y"] ∧
    (main "").2 = 0 := by
  decide

/-- C9: the four product names are pairwise distinct, the map from family and
variant to the name is injective, and family and variant are recovered from
the name by `decodeName`. -/
theorem product_names_identify_product :
    [ProductA.ConcreteProductAX.getName, ProductA.ConcreteProductAY.getName,
      ProductB.ConcreteProductBX.getName, ProductB.ConcreteProductBY.getName].Nodup ∧
    Function.Injective (fun q : Family × AbstractFactory => productName q.1 q.2) ∧
    ∀ (f : Family) (v : AbstractFactory), decodeName (productName f v) = some (f, v) := by
  have hdec : ∀ (f : Family) (v : AbstractFactory),
      decodeName (productName f v) = some (f, v) := by
    intro f v
    cases f <;> cases v <;> decide
  refine ⟨by decide, ?_, hdec⟩
  intro q1 q2 h
  have h1 := hdec q1.1 q1.2
  have h2 := hdec q2.1 q2.2
  simp only at h
  rw [h, h2] at h1
  exact (Option.some.inj h1).symm

end AbstractFactoryPattern

/-! ## Properties of the State program -/

namespace StatePattern

/-- What `handle` does to the process: it appends its line to `std::cout`. -/
lemma handle_eq (k : State) (m : Machine) :
    k.handle m = { m with cout := m.cout ++ handledLine k } := by
  cases k <;> simp [State.handle, handledLine, String.append_assoc]

/-- The body of `setState` never deletes anything: whatever the context
held, the call returns, stores the argument and leaves the process as is. -/
lemma setState_eq (c : Context) (s : UniquePtr) (m : Machine) :
    c.setState s m = .returned (⟨s⟩, m) := by
  cases c with
  | mk st =>
    cases st <;>
      simp [Context.setState, UniquePtr.moveAssign, UniquePtr.reset, UniquePtr.release,
        Outcome.bind]

/-- A context that holds a live object of class `k` answers `request` by
the `handle` of that class, and is itself unchanged. -/
lemma request_of_holds (c : Context) (m : Machine) (k : State) (h : c.Holds m k) :
    c.request m = .returned (c, { m with cout := m.cout ++ handledLine k }) := by
  obtain ⟨p, hp, hk⟩ := h
  simp [Context.request, hp, hk, handle_eq]

/-- A newly made object is live at the address handed out. -/
lemma holds_make_unique (k : State) (m : Machine) :
    (Context.mk (make_unique k m).1).Holds (make_unique k m).2 k := by
  refine ⟨m.fresh, rfl, ?_⟩
  simp [make_unique, List.lookup]

/-- Writing to `std::cout` does not affect what a context holds. -/
lemma holds_of_heap_eq (c : Context) (m m1 : Machine) (k : State)
    (hh : m1.heap = m.heap) (h : c.Holds m k) : c.Holds m1 k := by
  obtain ⟨p, hp, hk⟩ := h
  exact ⟨p, hp, by rw [hh]; exact hk⟩

/-- A sequence of calls on a context that holds `k`: all calls return, the
context ends up holding the argument of the last `setState`, and the text
written is the expected trace. -/
lemma runCalls_of_holds (cs : List Call) :
    ∀ (c : Context) (m : Machine) (k : State), c.Holds m k →
      ∃ c1 m1, runCalls cs c m = .returned (c1, m1) ∧ c1.Holds m1 (lastSet k cs) ∧
        m1.cout = m.cout ++ concatText ((expectedTrace k cs).map handledLine) := by
  induction cs with
  | nil =>
    intro c m k h
    exact ⟨c, m, rfl, h, by simp [expectedTrace, concatText]⟩
  | cons call rest ih =>
    intro c m k h
    cases call with
    | setState j =>
      obtain ⟨c1, m1, hrun, hholds, hout⟩ :=
        ih (Context.mk (make_unique j m).1) (make_unique j m).2 j (holds_make_unique j m)
      refine ⟨c1, m1, ?_, hholds, ?_⟩
      · simp only [runCalls, Call.exec, setState_eq, Outcome.bind]
        exact hrun
      · simpa [expectedTrace, make_unique] using hout
    | request =>
      have hh : c.Holds { m with cout := m.cout ++ handledLine k } k :=
        holds_of_heap_eq c m _ k rfl h
      obtain ⟨c1, m1, hrun, hholds, hout⟩ := ih c _ k hh
      refine ⟨c1, m1, ?_, hholds, ?_⟩
      · simp only [runCalls, Call.exec, request_of_holds c m k h, Outcome.bind]
        exact hrun
      · simpa [expectedTrace, concatText, String.append_assoc] using hout

/-- The expected trace has one entry per `request`. -/
lemma expectedTrace_length (cs : List Call) :
    ∀ k : State, (expectedTrace k cs).length = requestCount cs := by
  induction cs with
  | nil => intro k; rfl
  | cons call rest ih =>
    intro k
    cases call <;> simp [expectedTrace, requestCount, ih]

/-- C2: from a freshly constructed context, `setState(ConcreteStateA)`,
`request()`, `setState(ConcreteStateB)`, `request()` all return; the two
`setState` calls write nothing, the first `request` writes exactly
"State A handled." and the second exactly "State B handled."; `main`, which
performs this sequence, writes these two lines in this order and returns 0. -/
theorem main_sequence_emits_A_then_B (m : Machine) :
    ∃ c1 m1 c2 m2 c3 m3 c4 m4,
      Call.exec (.setState .ConcreteStateA) Context.new m = .returned (c1, m1) ∧
      m1.cout = m.cout ∧
      Call.exec .request c1 m1 = .returned (c2, m2) ∧
      m2.cout = m.cout ++ "State A handled.\n" ∧
      Call.exec (.setState .ConcreteStateB) c2 m2 = .returned (c3, m3) ∧
      m3.cout = m2.cout ∧
      Call.exec .request c3 m3 = .returned (c4, m4) ∧
      m4.cout = m2.cout ++ "State B handled.\n" ∧
      (main Machine.start).bind (fun r => .returned (r.1, r.2.cout)) =
        .returned (0, "State A handled.\nState B handled.\n") := by
  let c1 : Context := ⟨(make_unique .ConcreteStateA m).1⟩
  let m1 : Machine := (make_unique .ConcreteStateA m).2
  let m2 : Machine := { m1 with cout := m1.cout ++ handledLine .ConcreteStateA }
  let c3 : Context := ⟨(make_unique .ConcreteStateB m2).1⟩
  let m3 : Machine := (make_unique .ConcreteStateB m2).2
  let m4 : Machine := { m3 with cout := m3.cout ++ handledLine .ConcreteStateB }
  have s1 : Call.exec (.setState .ConcreteStateA) Context.new m = .returned (c1, m1) := by
    simp only [Call.exec, setState_eq, c1, m1]
  have r1 : Call.exec .request c1 m1 = .returned (c1, m2) :=
    request_of_holds c1 m1 .ConcreteStateA (holds_make_unique .ConcreteStateA m)
  have s2 : Call.exec (.setState .ConcreteStateB) c1 m2 = .returned (c3, m3) := by
    simp only [Call.exec, setState_eq, c3, m3]
  have r2 : Call.exec .request c3 m3 = .returned (c3, m4) :=
    request_of_holds c3 m3 .ConcreteStateB (holds_make_unique .ConcreteStateB m2)
  exact ⟨c1, m1, c1, m2, c3, m3, c3, m4, s1, rfl, r1, rfl, s2, rfl, r2, rfl, by decide⟩

/-- C3 (as the code behaves): on a context on which `setState` was never
called, `request` dereferences the null `state` pointer. No explicit error is
raised: the call has undefined behaviour, whatever the process, and so
defines no handled-event output either. -/
theorem request_on_new_context_undefined (m : Machine) :
    Context.new.state = none ∧
    Context.new.request m = .undefined ∧
    ∀ what : String, Context.new.request m ≠ .thrown what := by
  refine ⟨rfl, rfl, ?_⟩
  intro what h
  simp [Context.request, Context.new] at h

/-- C3 fails as stated: at program start, `request` on a freshly constructed
context does not end in an exception of any kind; it is undefined. -/
theorem request_on_new_context_not_explicit_error :
    ¬ ∃ what : String, Context.new.request Machine.start = .thrown what := by
  rintro ⟨what, h⟩
  simp [Context.request, Context.new] at h

/-- C4: `setState` always returns and replaces what the context holds:
whatever the context `c` held, after `c.setState(s)` with `s` owning a live
object `p` of class `k`, the context holds exactly `p`, nothing was written,
and the next `request` writes the line of `k` and nothing else. -/
theorem setState_replaces_wholesale (c : Context) (m : Machine) (k : State) (p : Addr)
    (hp : m.heap.lookup p = some k) :
    ∃ c1 m1, c.setState (some p) m = .returned (c1, m1) ∧
      c1.state = some p ∧ c1.Holds m1 k ∧ m1.cout = m.cout ∧
      c1.request m1 = .returned (c1, { m1 with cout := m.cout ++ handledLine k }) := by
  have hh : (Context.mk (some p)).Holds m k := ⟨p, rfl, hp⟩
  exact ⟨⟨some p⟩, m, setState_eq c (some p) m, rfl, hh, rfl, request_of_holds _ m k hh⟩

/-- Witness for C4: a context holding a `ConcreteStateA` at address 0 is
given the `ConcreteStateB` at address 1. -/
theorem setState_replaces_wholesale_witness :
    (⟨[(1, .ConcreteStateB), (0, .ConcreteStateA)], 2, ""⟩ : Machine).heap.lookup 1
        = some State.ConcreteStateB ∧
    ∃ c1 m1,
      (Context.mk (some 0)).setState (some 1)
          ⟨[(1, .ConcreteStateB), (0, .ConcreteStateA)], 2, ""⟩ = .returned (c1, m1) ∧
      c1.state = some 1 ∧ c1.Holds m1 .ConcreteStateB ∧
      m1.cout = (⟨[(1, .ConcreteStateB), (0, .ConcreteStateA)], 2, ""⟩ : Machine).cout ∧
      c1.request m1 = .returned (c1, { m1 with
        cout := (⟨[(1, .ConcreteStateB), (0, .ConcreteStateA)], 2, ""⟩ : Machine).cout
          ++ handledLine .ConcreteStateB }) :=
  ⟨by decide, setState_replaces_wholesale (Context.mk (some 0))
    ⟨[(1, .ConcreteStateB), (0, .ConcreteStateA)], 2, ""⟩ .ConcreteStateB 1 (by decide)⟩

/-- C5: on a context holding a behaviour `k`, two `request` calls in a row
both return, each writes the line of `k` (so the line appears exactly twice),
and context and heap are as before: `request` changes no state. -/
theorem request_twice_same_effect (c : Context) (m : Machine) (k : State)
    (h : c.Holds m k) :
    c.request m = .returned (c, { m with cout := m.cout ++ handledLine k }) ∧
    (c.request m).bind (fun r => r.1.request r.2) =
      .returned (c, { m with cout := m.cout ++ handledLine k ++ handledLine k }) ∧
    c.Holds { m with cout := m.cout ++ handledLine k ++ handledLine k } k := by
  have h1 := request_of_holds c m k h
  have hh : c.Holds { m with cout := m.cout ++ handledLine k } k :=
    holds_of_heap_eq c m _ k rfl h
  have h2 := request_of_holds c _ k hh
  refine ⟨h1, ?_, holds_of_heap_eq c m _ k rfl h⟩
  rw [h1]
  simpa [Outcome.bind] using h2

/-- Witness for C5: a context holding a `ConcreteStateB` at address 3. -/
theorem request_twice_same_effect_witness :
    (Context.mk (some 3)).Holds ⟨[(3, .ConcreteStateB)], 4, "x"⟩ .ConcreteStateB ∧
    (Context.mk (some 3)).request ⟨[(3, .ConcreteStateB)], 4, "x"⟩ =
      .returned (⟨some 3⟩, ⟨[(3, .ConcreteStateB)], 4, "xState B handled.\n"⟩) ∧
    ((Context.mk (some 3)).request ⟨[(3, .ConcreteStateB)], 4, "x"⟩).bind
        (fun r => r.1.request r.2) =
      .returned (⟨some 3⟩,
        ⟨[(3, .ConcreteStateB)], 4, "xState B handled.\nState B handled.\n"⟩) :=
  have h := request_twice_same_effect (Context.mk (some 3))
    ⟨[(3, .ConcreteStateB)], 4, "x"⟩ .ConcreteStateB ⟨3, rfl, by decide⟩
  ⟨⟨3, rfl, by decide⟩, h.1, h.2.1⟩

/-- C6: there are no implicit transitions. For every sequence of calls that
begins with a `setState`, and at every point of it (after any number `n` of
the calls that follow the first), all calls have returned, the context holds
a live object whose class is the argument of the most recent `setState`, and
the text written consists of one line per `request`, each the line of the
class passed to the latest `setState` before that `request`. -/
theorem no_implicit_transitions (c : Context) (m : Machine) (k : State)
    (rest : List Call) (n : Nat) :
    ∃ c1 m1, runCalls (.setState k :: rest.take n) c m = .returned (c1, m1) ∧
      c1.Holds m1 (lastSet k (rest.take n)) ∧
      m1.cout = m.cout ++ concatText ((expectedTrace k (rest.take n)).map handledLine) ∧
      (expectedTrace k (rest.take n)).length = requestCount (rest.take n) := by
  obtain ⟨c1, m1, hrun, hholds, hout⟩ :=
    runCalls_of_holds (rest.take n) (Context.mk (make_unique k m).1) (make_unique k m).2 k
      (holds_make_unique k m)
  refine ⟨c1, m1, ?_, hholds, ?_, expectedTrace_length _ k⟩
  · simp only [runCalls, Call.exec, setState_eq, Outcome.bind]
    exact hrun
  · simpa [make_unique] using hout

/-- C7 (what the code does): a context holding the `ConcreteStateA` at
address 0 is given the `ConcreteStateB` at address 1. After `setState`
returns, the context owns address 1 only, yet the object at address 0 is
still allocated: it was not destroyed and has no owner. In `main` the same
object is still allocated when the program ends. -/
theorem setState_leaks_previous_state :
    (Context.mk (some 0)).setState (some 1)
        ⟨[(1, .ConcreteStateB), (0, .ConcreteStateA)], 2, ""⟩ =
      .returned (⟨some 1⟩, ⟨[(1, .ConcreteStateB), (0, .ConcreteStateA)], 2, ""⟩) ∧
    runCalls [.setState .ConcreteStateA, .setState .ConcreteStateB] Context.new Machine.start =
      .returned (⟨some 1⟩, ⟨[(1, .ConcreteStateB), (0, .ConcreteStateA)], 2, ""⟩) ∧
    (main Machine.start).bind (fun r => .returned r.2.heap) =
      .returned [(0, .ConcreteStateA)] := by
  decide

end StatePattern
